import Mathlib

/-!
# Transactions over paired continuations (src/src/transaction.js)

A shallow embedding of the `Transaction` combinators: `of`, `rollbackBoth`, `chain`,
`map` and `ap`.

JavaScript values are an arbitrary type `V` with a truthiness test and an application
operation (`JSValue`).  A JavaScript function of the shape `(rej, res) => ...` is a Lean
function from two handlers to an effectful action `JS V Unit`.  The effects of an action are

* observable events, appended to a trace,
* closure variables (`let resolved = false`, `let fn, val`, `let m`), kept in a store,
* asynchronous completions: callbacks handed to the event loop, to be run in a later tick,
* an exception that unwinds to the caller (`m.rollback` when `m` is `undefined`).

Caller-supplied transactions are leaves: a leaf computation records that it was started and
calls exactly one of its two handlers exactly once, either before it returns or in a later
tick.  The order in which the event loop runs the outstanding callbacks is a schedule, and the
statements quantify over every schedule.
-/

namespace FantasyTransactions

/-! ## Values, events and the store -/

/-- The two operations the source performs on a JavaScript value: the truthiness test of
`v ? a : b` and the call `f(v)`. -/
class JSValue (V : Type) where
  /-- Truthiness of a value in a conditional. -/
  truthy : V → Bool
  /-- The result of the call `f(v)`. -/
  call : V → V → V

/-- Which of the two computations of a transaction is meant. -/
inductive Side where
  | commit
  | rollback
deriving DecidableEq, Repr

/-- The exception the source can raise: a property read on `undefined`. -/
inductive JSError where
  | typeError
deriving DecidableEq, Repr

/-- Observable events. `started` and `reported` are recorded by leaf computations (`reported`
carries the failure value, or `none` for a success), `applied` records the evaluation of
`f(x)` in `chain`, `success` and `failure` are recorded by the handlers of the outermost
caller, `raised` records an exception that reached the caller (or the event loop). -/
inductive Event (V : Type) where
  | started (leaf : Nat) (side : Side)
  | reported (leaf : Nat) (side : Side) (failed : Option V)
  | applied (x : V)
  | success (side : Side) (payload : Option V)
  | failure (side : Side) (e : V)
  | raised (err : JSError)
deriving DecidableEq, Repr

/-- The store: the trace of events so far and the closure variables. `flags` holds the boolean
variables, `slots` the value variables (`none` is `undefined`), both allocated on entry to the
function that declares them; `cells` holds the variable `m` of each `chain`, by the name of
the chain. -/
structure World (V : Type) where
  trace : List (Event V)
  flags : List Bool
  slots : List (Option V)
  cells : List (Nat × V)

/-- A callback handed to the event loop. Running it yields an optional exception, the new
store, and the callbacks it handed to the event loop in turn. -/
inductive Pending (V : Type) : Type where
  | mk : (World V → Except JSError Unit × World V × List (Pending V)) → Pending V

/-- An effectful action returning `α`. -/
def JS (V : Type) (α : Type) : Type :=
  World V → Except JSError α × World V × List (Pending V)

/-- Run a callback of the event loop. -/
def Pending.run {V : Type} : Pending V → JS V Unit
  | .mk body => body

/-- Return a value, no effect. -/
def JS.pure {V α : Type} (a : α) : JS V α :=
  fun w => (.ok a, w, [])

/-- Sequencing: an exception in the first action skips the second; the effects so far stay. -/
def JS.bind {V α β : Type} (m : JS V α) (k : α → JS V β) : JS V β :=
  fun w =>
    match m w with
    | (.ok a, w1, ts) =>
      match k a w1 with
      | (r, w2, ts2) => (r, w2, ts ++ ts2)
    | (.error err, w1, ts) => (.error err, w1, ts)

instance {V : Type} : Monad (JS V) where
  pure := JS.pure
  bind := JS.bind

/-- Append an event to the trace. -/
def emit {V : Type} (ev : Event V) : JS V Unit :=
  fun w => (.ok (), { w with trace := w.trace ++ [ev] }, [])

/-- Raise an exception. -/
def throwJS {V α : Type} (err : JSError) : JS V α :=
  fun w => (.error err, w, [])

/-- Hand a callback to the event loop: it runs in a later tick. -/
def later {V : Type} (body : JS V Unit) : JS V Unit :=
  fun w => (.ok (), w, [Pending.mk body])

/-- Declare a boolean variable (`let rejected = false`). -/
def newFlag {V : Type} (init : Bool) : JS V Nat :=
  fun w => (.ok w.flags.length, { w with flags := w.flags ++ [init] }, [])

/-- Read a boolean variable. -/
def getFlag {V : Type} (r : Nat) : JS V Bool :=
  fun w => (.ok (w.flags.getD r false), w, [])

/-- Assign a boolean variable. -/
def setFlag {V : Type} (r : Nat) (b : Bool) : JS V Unit :=
  fun w => (.ok (), { w with flags := w.flags.set r b }, [])

/-- Declare a value variable without an initialiser (`let fn`): it is `undefined`. -/
def newSlot {V : Type} : JS V Nat :=
  fun w => (.ok w.slots.length, { w with slots := w.slots ++ [none] }, [])

/-- Read a value variable. -/
def getSlot {V : Type} (r : Nat) : JS V (Option V) :=
  fun w => (.ok ((w.slots.getD r none)), w, [])

/-- Assign a value variable. -/
def setSlot {V : Type} (r : Nat) (v : V) : JS V Unit :=
  fun w => (.ok (), { w with slots := w.slots.set r (some v) }, [])

/-- Assign the variable `m` of the chain named `c`. The cell records the argument `x` of
`m = f(x)`; the transaction is `f x`. -/
def assign {V : Type} (c : Nat) (x : V) : JS V Unit :=
  fun w => (.ok (), { w with cells := (c, x) :: w.cells }, [])

/-- Read the variable `m` of the chain named `c`: `none` while it is `undefined`. -/
def deref {V : Type} (c : Nat) : JS V (Option V) :=
  fun w => (.ok (w.cells.lookup c), w, [])

/-! ## The transaction type -/

/-- A handler: a callback of one argument. -/
abbrev Handler (V α : Type) : Type := α → JS V Unit

/-- A computation `(rej, res) => ...`. -/
abbrev Comp (V α : Type) : Type := Handler V V → Handler V α → JS V Unit

/-- The object returned by `Transaction(commit, rollback)`: its two computations. The methods
`chain`, `map` and `ap` are the functions below. The success handler of a rollback is called
without an argument. -/
structure Transaction (V : Type) where
  commit : Comp V V
  rollback : Comp V Unit

/-- Source line 8: `of = x => Transaction((rej, res) => res(x), (rej, res) => res())`. -/
def of {V : Type} (x : V) : Transaction V :=
  Transaction.mk (fun _rej res => res x) (fun _rej res => res ())

/-- Source lines 33-39: `rollbackBoth`. The argument `m` is `none` when the variable passed is
`undefined`; reading `m.rollback` then raises a `TypeError`. -/
def rollbackBoth {V : Type} (rollback : Comp V Unit) (m : Option (Transaction V)) :
    Comp V Unit :=
  fun rej res => do
    let resolved ← newFlag false
    let rejected ← newFlag false
    let resOnce : Handler V Unit := fun _ => do
      if (← getFlag resolved) then res () else setFlag resolved true
    let rejOnce : Handler V V := fun x => do
      if (← getFlag rejected) then pure () else do
        setFlag rejected true
        rej x
    rollback rejOnce resOnce
    match m with
    | none => throwJS JSError.typeError
    | some m => m.rollback rejOnce resOnce

/-- Source lines 50-59: `chain`. The variable `m` declared by `let m` is the cell `c`, one
per chain; `m = f(x)` stores the argument `x` there and the rollback reads `m` back as `f x`
(`none`, that is `undefined`, before the assignment). The event `applied x` records the call
`f(x)`. -/
def chain {V : Type} (self : Transaction V) (c : Nat) (f : V → Transaction V) :
    Transaction V :=
  Transaction.mk
    (fun rej res => self.commit rej (fun x => do
      emit (Event.applied x)
      assign c x
      (f x).commit (fun e => self.rollback rej (fun _ => rej e)) res))
    (fun rej res => do
      let arg ← deref c
      rollbackBoth self.rollback (arg.map f) rej res)

/-- Source line 70: `map = f => chain(x => of(f(x)))`. -/
def map {V : Type} (self : Transaction V) (c : Nat) (f : V → V) : Transaction V :=
  chain self c (fun x => of (f x))

/-- Source lines 81-89: `ap`. -/
def ap {V : Type} [JSValue V] (self : Transaction V) (m : Transaction V) : Transaction V :=
  Transaction.mk
    (fun rej res => do
      let fn ← newSlot
      let val ← newSlot
      let rejected ← newFlag false
      let rejOnce : Handler V V := fun x => do
        if (← getFlag rejected) then pure () else do
          setFlag rejected true
          rej x
      self.commit rejOnce (fun f => do
        match (← getSlot val) with
        | some v => if JSValue.truthy v then res (JSValue.call f v) else setSlot fn f
        | none => setSlot fn f)
      m.commit rejOnce (fun x => do
        match (← getSlot fn) with
        | some g => if JSValue.truthy g then res (JSValue.call g x) else setSlot val x
        | none => setSlot val x))
    (rollbackBoth self.rollback (some m))

/-! ## Leaves: caller-supplied computations -/

/-- How a caller-supplied computation behaves: whether it reports in a later tick, and which
handler it calls with which value. -/
structure Behaviour (V α : Type) where
  async : Bool
  outcome : Except V α

/-- The computation of a leaf: it records that it started, and reports once. -/
def perform {V α : Type} (leaf : Nat) (side : Side) (b : Behaviour V α) : Comp V α :=
  fun rej res => do
    emit (Event.started leaf side)
    let report : JS V Unit :=
      match b.outcome with
      | .ok x => do emit (Event.reported leaf side none); res x
      | .error e => do emit (Event.reported leaf side (some e)); rej e
    if b.async then later report else report

/-- A caller-supplied transaction. -/
def leaf {V : Type} (n : Nat) (c : Behaviour V V) (r : Behaviour V Unit) : Transaction V :=
  Transaction.mk (perform n Side.commit c) (perform n Side.rollback r)

/-! ## The caller and the event loop -/

/-- The store and the callbacks the event loop holds. -/
structure Config (V : Type) where
  world : World V
  pending : List (Pending V)

/-- Nothing has happened yet. -/
def Config.init {V : Type} : Config V :=
  ⟨⟨[], [], [], []⟩, []⟩

/-- The trace of a configuration. -/
def Config.trace {V : Type} (cfg : Config V) : List (Event V) :=
  cfg.world.trace

/-- Nothing is outstanding. -/
def Config.quiet {V : Type} (cfg : Config V) : Prop :=
  cfg.pending.length = 0

/-- Record an exception that nobody caught. -/
def noteRaised {V : Type} (r : Except JSError Unit) (w : World V) : World V :=
  match r with
  | .ok _ => w
  | .error err => { w with trace := w.trace ++ [Event.raised err] }

/-- Run an action of the caller (or of the event loop) in a configuration. -/
def Config.exec {V : Type} (cfg : Config V) (act : JS V Unit) : Config V :=
  match act cfg.world with
  | (r, w, ts) => ⟨noteRaised r w, cfg.pending ++ ts⟩

/-- The caller invokes `t.commit(rej, res)` with handlers that record their call. -/
def invokeCommit {V : Type} (t : Transaction V) (cfg : Config V) : Config V :=
  cfg.exec (t.commit (fun e => emit (Event.failure Side.commit e))
    (fun x => emit (Event.success Side.commit (some x))))

/-- The caller invokes `t.rollback(rej, res)` with handlers that record their call. -/
def invokeRollback {V : Type} (t : Transaction V) (cfg : Config V) : Config V :=
  cfg.exec (t.rollback (fun e => emit (Event.failure Side.rollback e))
    (fun _ => emit (Event.success Side.rollback none)))

/-- Take the `i`-th element out of a list. -/
def pick {α : Type} : Nat → List α → Option (α × List α)
  | _, [] => none
  | 0, a :: as => some (a, as)
  | i + 1, a :: as => (pick i as).map (fun p => (p.1, a :: p.2))

/-- One tick of the event loop: the `i`-th outstanding callback runs. -/
def tick {V : Type} (i : Nat) (cfg : Config V) : Option (Config V) :=
  (pick i cfg.pending).map (fun p => Config.exec ⟨cfg.world, p.2⟩ p.1.run)

/-- Run the event loop along a schedule; `none` when the schedule names a callback that is
not there. -/
def run {V : Type} : List Nat → Config V → Option (Config V)
  | [], cfg => some cfg
  | i :: rest, cfg => (tick i cfg).bind (run rest)

/-- Every configuration an execution from `cfg` reaches satisfies `P`. -/
def Always {V : Type} (P : Config V → Prop) (cfg : Config V) : Prop :=
  ∀ sched next, run sched cfg = some next → P next

/-- Every complete execution from `cfg` ends in a configuration satisfying `P`. -/
def AllRuns {V : Type} (P : Config V → Prop) (cfg : Config V) : Prop :=
  ∀ sched final, run sched cfg = some final → final.quiet → P final

/-- Some execution from `cfg` is complete. -/
def Completes {V : Type} (cfg : Config V) : Prop :=
  ∃ sched final, run sched cfg = some final ∧ final.quiet

/-! ## Observations on traces -/

/-- Number of events satisfying `p`. -/
def count {V : Type} (p : Event V → Bool) (tr : List (Event V)) : Nat :=
  (tr.filter p).length

/-- No `q` event occurs before the first `p` event. -/
def precedes {V : Type} (p q : Event V → Bool) : List (Event V) → Bool
  | [] => true
  | ev :: rest => if p ev then true else if q ev then false else precedes p q rest

/-- The leaf computation was started. -/
def isStarted {V : Type} (n : Nat) (s : Side) : Event V → Bool
  | .started n1 s1 => n1 == n && s1 == s
  | _ => false

/-- The leaf computation reported; `ok` tells whether it reported a success. -/
def isReported {V : Type} (n : Nat) (s : Side) (ok : Bool) : Event V → Bool
  | .reported n1 s1 failed => n1 == n && s1 == s && failed.isNone == ok
  | _ => false

/-- The leaf computation reported, a success or a failure. -/
def isSettled {V : Type} (n : Nat) (s : Side) : Event V → Bool
  | .reported n1 s1 _ => n1 == n && s1 == s
  | _ => false

/-- Any rollback computation of a leaf was started. -/
def isRollbackStart {V : Type} : Event V → Bool
  | .started _ Side.rollback => true
  | _ => false

/-- The function given to `chain` was applied. -/
def isApplied {V : Type} : Event V → Bool
  | .applied _ => true
  | _ => false

/-- The success handler of the caller was invoked. -/
def isSuccess {V : Type} (s : Side) : Event V → Bool
  | .success s1 _ => s1 == s
  | _ => false

/-- The failure handler of the caller was invoked. -/
def isFailure {V : Type} (s : Side) : Event V → Bool
  | .failure s1 _ => s1 == s
  | _ => false

/-- An exception reached the caller. -/
def isRaised {V : Type} : Event V → Bool
  | .raised _ => true
  | _ => false

/-- The payloads the success handler of the caller received, in order. -/
def successes {V : Type} (s : Side) (tr : List (Event V)) : List (Option V) :=
  tr.filterMap (fun ev => match ev with
    | .success s1 p => if s1 == s then some p else none
    | _ => none)

/-- The values the failure handler of the caller received, in order. -/
def failures {V : Type} (s : Side) (tr : List (Event V)) : List V :=
  tr.filterMap (fun ev => match ev with
    | .failure s1 e => if s1 == s then some e else none
    | _ => none)

/-- The failures the leaf computations of side `s` reported, in order. -/
def reportedFailures {V : Type} (s : Side) (tr : List (Event V)) : List V :=
  tr.filterMap (fun ev => match ev with
    | .reported _ s1 (some e) => if s1 == s then some e else none
    | _ => none)

/-- The arguments the function given to `chain` was applied to, in order. -/
def appliedTo {V : Type} (tr : List (Event V)) : List V :=
  tr.filterMap (fun ev => match ev with
    | .applied x => some x
    | _ => none)

/-! ## Concrete values, for examples -/

/-- A few JavaScript values: `undefined`, numbers, and functions: the curried
`add = a => b => a + b` of the test file and its applications `add(a)`, `identity = x => x`,
`g => g(x)`, and `compose = a => b => y => a(b(y))` with its applications `compose(a)` and
`compose(a)(b)`. -/
inductive Val where
  | undefined
  | num (n : Int)
  | add
  | addTo (a : Int)
  | identity
  | applyTo (x : Val)
  | compose
  | composeWith (a : Val)
  | composed (a b : Val)
deriving DecidableEq, Repr

/-- Truthiness of a concrete value: `undefined` and `0` are falsy, functions are truthy. -/
def Val.truthy : Val → Bool
  | .undefined => false
  | .num n => n != 0
  | _ => true

/-- The call `f(v)` on concrete values; a call that is not listed yields `undefined`. -/
def Val.call : Val → Val → Val
  | .add, .num a => .addTo a
  | .addTo a, .num b => .num (a + b)
  | .identity, v => v
  | .applyTo (.num b), .addTo a => .num (a + b)
  | .applyTo x, .identity => x
  | .compose, a => .composeWith a
  | .composeWith a, b => .composed a b
  | .composed a b, y => Val.call a (Val.call b y)
  | _, _ => .undefined

instance : JSValue Val where
  truthy := Val.truthy
  call := Val.call

/-! ## Executions: stepping lemmas -/

theorem allRuns_quiet {V : Type} {P : Config V → Prop} {cfg : Config V}
    (hq : cfg.pending = []) (hP : P cfg) : AllRuns P cfg := by
  intro sched final hrun _
  cases sched with
  | nil => simp [run] at hrun; exact hrun ▸ hP
  | cons i rest => simp [run, tick, hq, pick] at hrun

theorem allRuns_one {V : Type} {P : Config V → Prop} {cfg : Config V} {p : Pending V}
    (hp : cfg.pending = [p])
    (h0 : AllRuns P (Config.exec ⟨cfg.world, []⟩ p.run)) : AllRuns P cfg := by
  intro sched final hrun hquiet
  cases sched with
  | nil =>
    simp [run] at hrun
    subst hrun
    simp [Config.quiet, hp] at hquiet
  | cons i rest =>
    cases i with
    | zero =>
      simp [run, tick, hp, pick] at hrun
      exact h0 rest final hrun hquiet
    | succ j => simp [run, tick, hp, pick] at hrun

theorem allRuns_two {V : Type} {P : Config V → Prop} {cfg : Config V} {p q : Pending V}
    (hp : cfg.pending = [p, q])
    (h0 : AllRuns P (Config.exec ⟨cfg.world, [q]⟩ p.run))
    (h1 : AllRuns P (Config.exec ⟨cfg.world, [p]⟩ q.run)) : AllRuns P cfg := by
  intro sched final hrun hquiet
  cases sched with
  | nil =>
    simp [run] at hrun
    subst hrun
    simp [Config.quiet, hp] at hquiet
  | cons i rest =>
    match i with
    | 0 =>
      simp [run, tick, hp, pick] at hrun
      exact h0 rest final hrun hquiet
    | 1 =>
      simp [run, tick, hp, pick] at hrun
      exact h1 rest final hrun hquiet
    | j + 2 => simp [run, tick, hp, pick] at hrun

theorem always_quiet {V : Type} {P : Config V → Prop} {cfg : Config V}
    (hq : cfg.pending = []) (hP : P cfg) : Always P cfg := by
  intro sched next hrun
  cases sched with
  | nil => simp [run] at hrun; exact hrun ▸ hP
  | cons i rest => simp [run, tick, hq, pick] at hrun

theorem always_one {V : Type} {P : Config V → Prop} {cfg : Config V} {p : Pending V}
    (hp : cfg.pending = [p]) (hP : P cfg)
    (h0 : Always P (Config.exec ⟨cfg.world, []⟩ p.run)) : Always P cfg := by
  intro sched next hrun
  cases sched with
  | nil => simp [run] at hrun; exact hrun ▸ hP
  | cons i rest =>
    cases i with
    | zero =>
      simp [run, tick, hp, pick] at hrun
      exact h0 rest next hrun
    | succ j => simp [run, tick, hp, pick] at hrun

theorem completes_quiet {V : Type} {cfg : Config V} (hq : cfg.pending = []) : Completes cfg :=
  ⟨[], cfg, rfl, by simp [Config.quiet, hq]⟩

theorem completes_one {V : Type} {cfg : Config V} {p : Pending V} {rest : List (Pending V)}
    (hp : cfg.pending = p :: rest)
    (h : Completes (Config.exec ⟨cfg.world, rest⟩ p.run)) : Completes cfg := by
  obtain ⟨sched, final, hrun, hq⟩ := h
  exact ⟨0 :: sched, final, by simp [run, tick, hp, pick, hrun], hq⟩

/-! ## The commit of `chain` and of `ap` -/

/-- C1. When stage 1 commits `x`, its rollback succeeds and the commit of `m = f(x)` fails with
`e`, every complete execution of the commit of `t.chain(f)` starts the rollback of `t` exactly
once and only after `m` reported its failure, never starts the rollback of `m`, and calls the
failure handler exactly once, with `e`, after the rollback of `t` reported; the success handler
is not called. Such an execution exists. -/
theorem chain_commit_second_stage_fails {V : Type} (x e : V) (a1 a2 a3 : Bool) (c : Nat)
    (f : V → Transaction V) (rbm : Behaviour V Unit)
    (hf : f x = leaf 2 ⟨a3, .error e⟩ rbm) :
    Completes (invokeCommit (chain (leaf 1 ⟨a1, .ok x⟩ ⟨a2, .ok ()⟩) c f) Config.init)
    ∧ AllRuns (fun fin =>
        count (isStarted 1 Side.rollback) fin.trace = 1
        ∧ precedes (isReported 2 Side.commit false) (isStarted 1 Side.rollback) fin.trace = true
        ∧ count (isStarted 2 Side.rollback) fin.trace = 0
        ∧ failures Side.commit fin.trace = [e]
        ∧ precedes (isReported 1 Side.rollback true) (isFailure Side.commit) fin.trace = true
        ∧ successes Side.commit fin.trace = [])
      (invokeCommit (chain (leaf 1 ⟨a1, .ok x⟩ ⟨a2, .ok ()⟩) c f) Config.init) := by
  constructor
  · cases a1 <;> cases a2 <;> cases a3 <;>
      simp [invokeCommit, chain, leaf, perform, Config.exec, Config.init, hf, Bind.bind,
        JS.bind, emit, assign, noteRaised, later] <;>
      repeat (first
        | exact completes_quiet rfl
        | (refine completes_one rfl ?_
           simp [Pending.run, perform, Config.exec, hf, Bind.bind, JS.bind, emit,
             assign, noteRaised, later]))
  · cases a1 <;> cases a2 <;> cases a3 <;>
      simp [invokeCommit, chain, leaf, perform, Config.exec, Config.init, hf, Bind.bind,
        JS.bind, emit, assign, noteRaised, later] <;>
      repeat (first
        | (refine allRuns_quiet rfl ?_
           simp [Config.trace, count, precedes, isStarted, isReported, failures, successes,
             isFailure])
        | (refine allRuns_one rfl ?_
           simp [Pending.run, perform, Config.exec, hf, Bind.bind, JS.bind, emit,
             assign, noteRaised, later]))

/-- C1, at an instance: stage 1 commits `10`, stage 2 fails with `7`, all synchronously. -/
theorem chain_commit_second_stage_fails_witness :
    Completes (invokeCommit (chain (leaf 1 ⟨false, .ok (Val.num 10)⟩ ⟨false, .ok ()⟩) 0
        (fun _ => leaf 2 ⟨false, .error (Val.num 7)⟩ ⟨false, .ok ()⟩)) Config.init)
    ∧ AllRuns (fun fin =>
        count (isStarted 1 Side.rollback) fin.trace = 1
        ∧ precedes (isReported 2 Side.commit false) (isStarted 1 Side.rollback) fin.trace = true
        ∧ count (isStarted 2 Side.rollback) fin.trace = 0
        ∧ failures Side.commit fin.trace = [Val.num 7]
        ∧ precedes (isReported 1 Side.rollback true) (isFailure Side.commit) fin.trace = true
        ∧ successes Side.commit fin.trace = [])
      (invokeCommit (chain (leaf 1 ⟨false, .ok (Val.num 10)⟩ ⟨false, .ok ()⟩) 0
        (fun _ => leaf 2 ⟨false, .error (Val.num 7)⟩ ⟨false, .ok ()⟩)) Config.init) :=
  chain_commit_second_stage_fails (Val.num 10) (Val.num 7) false false false 0
    (fun _ => leaf 2 ⟨false, .error (Val.num 7)⟩ ⟨false, .ok ()⟩) ⟨false, .ok ()⟩ rfl

/-- C2, as stated, fails: stage 1 commits `10`, stage 2 fails with `1`, and the rollback of
stage 1 fails with `2`; the failure handler does not receive `1`. -/
theorem chain_commit_rollback_failure_counterexample :
    ¬ AllRuns (fun fin => failures Side.commit fin.trace = [Val.num 1])
      (invokeCommit (chain (leaf 1 ⟨false, .ok (Val.num 10)⟩ ⟨false, .error (Val.num 2)⟩) 0
        (fun _ => leaf 2 ⟨false, .error (Val.num 1)⟩ ⟨false, .ok ()⟩)) Config.init) := by
  intro h
  exact absurd (h [] _ rfl rfl) (by decide)

/-- C2, amended. When stage 1 commits `x`, the commit of `f(x)` fails with `e` and the rollback
of stage 1 fails with `r`, every complete execution of the commit of `t.chain(f)` calls the
failure handler exactly once, with the rollback failure `r`; the commit failure `e` is not
passed on and the success handler is not called. Such an execution exists. -/
theorem chain_commit_rollback_failure {V : Type} (x e r : V) (a1 a2 a3 : Bool) (c : Nat)
    (f : V → Transaction V) (rbm : Behaviour V Unit)
    (hf : f x = leaf 2 ⟨a3, .error e⟩ rbm) :
    Completes (invokeCommit (chain (leaf 1 ⟨a1, .ok x⟩ ⟨a2, .error r⟩) c f) Config.init)
    ∧ AllRuns (fun fin =>
        failures Side.commit fin.trace = [r]
        ∧ reportedFailures Side.commit fin.trace = [e]
        ∧ count (isStarted 1 Side.rollback) fin.trace = 1
        ∧ successes Side.commit fin.trace = [])
      (invokeCommit (chain (leaf 1 ⟨a1, .ok x⟩ ⟨a2, .error r⟩) c f) Config.init) := by
  constructor
  · cases a1 <;> cases a2 <;> cases a3 <;>
      simp [invokeCommit, chain, leaf, perform, Config.exec, Config.init, hf, Bind.bind,
        JS.bind, emit, assign, noteRaised, later] <;>
      repeat (first
        | exact completes_quiet rfl
        | (refine completes_one rfl ?_
           simp [Pending.run, perform, Config.exec, hf, Bind.bind, JS.bind, emit,
             assign, noteRaised, later]))
  · cases a1 <;> cases a2 <;> cases a3 <;>
      simp [invokeCommit, chain, leaf, perform, Config.exec, Config.init, hf, Bind.bind,
        JS.bind, emit, assign, noteRaised, later] <;>
      repeat (first
        | (refine allRuns_quiet rfl ?_
           simp [Config.trace, count, precedes, isStarted, isReported, failures, successes,
             reportedFailures, isFailure])
        | (refine allRuns_one rfl ?_
           simp [Pending.run, perform, Config.exec, hf, Bind.bind, JS.bind, emit,
             assign, noteRaised, later]))

/-- C2, amended, at an instance: stage 1 commits `10`, stage 2 fails with `1`, the rollback of
stage 1 fails with `2`. -/
theorem chain_commit_rollback_failure_witness :
    Completes (invokeCommit (chain (leaf 1 ⟨false, .ok (Val.num 10)⟩ ⟨false, .error (Val.num 2)⟩) 0
        (fun _ => leaf 2 ⟨false, .error (Val.num 1)⟩ ⟨false, .ok ()⟩)) Config.init)
    ∧ AllRuns (fun fin =>
        failures Side.commit fin.trace = [Val.num 2]
        ∧ reportedFailures Side.commit fin.trace = [Val.num 1]
        ∧ count (isStarted 1 Side.rollback) fin.trace = 1
        ∧ successes Side.commit fin.trace = [])
      (invokeCommit (chain (leaf 1 ⟨false, .ok (Val.num 10)⟩ ⟨false, .error (Val.num 2)⟩) 0
        (fun _ => leaf 2 ⟨false, .error (Val.num 1)⟩ ⟨false, .ok ()⟩)) Config.init) :=
  chain_commit_rollback_failure (Val.num 10) (Val.num 1) (Val.num 2) false false false 0
    (fun _ => leaf 2 ⟨false, .error (Val.num 1)⟩ ⟨false, .ok ()⟩) ⟨false, .ok ()⟩ rfl

/-- C3, at the failing input: the function side commits `add(1)` in a later tick, the value
side has already committed `0`. The execution completes with both sides reported and neither
handler called: `0` is falsy, so the function is stored instead of being applied. -/
theorem ap_commit_falsy_value_first :
    Completes (invokeCommit (ap (leaf 1 ⟨true, .ok (Val.addTo 1)⟩ ⟨false, .ok ()⟩)
        (leaf 2 ⟨false, .ok (Val.num 0)⟩ ⟨false, .ok ()⟩)) Config.init)
    ∧ AllRuns (fun fin =>
        count (isReported 1 Side.commit true) fin.trace = 1
        ∧ count (isReported 2 Side.commit true) fin.trace = 1
        ∧ successes Side.commit fin.trace = []
        ∧ failures Side.commit fin.trace = [])
      (invokeCommit (ap (leaf 1 ⟨true, .ok (Val.addTo 1)⟩ ⟨false, .ok ()⟩)
        (leaf 2 ⟨false, .ok (Val.num 0)⟩ ⟨false, .ok ()⟩)) Config.init) := by
  constructor
  · exact ⟨[0], _, rfl, rfl⟩
  · refine allRuns_one rfl (allRuns_quiet rfl ?_)
    decide

/-- C4. When stage 1 commits `x` and the commit of `f(x)` succeeds with `y`, every complete
execution of the commit of `t.chain(f)` applies `f` exactly once, to `x`, calls the success
handler exactly once, with `y`, never calls the failure handler and starts no rollback. Such
an execution exists. -/
theorem chain_commit_both_stages_succeed {V : Type} (x y : V) (a1 a2 : Bool) (c : Nat)
    (f : V → Transaction V) (rbt rbm : Behaviour V Unit)
    (hf : f x = leaf 2 ⟨a2, .ok y⟩ rbm) :
    Completes (invokeCommit (chain (leaf 1 ⟨a1, .ok x⟩ rbt) c f) Config.init)
    ∧ AllRuns (fun fin =>
        appliedTo fin.trace = [x]
        ∧ successes Side.commit fin.trace = [some y]
        ∧ failures Side.commit fin.trace = []
        ∧ count isRollbackStart fin.trace = 0)
      (invokeCommit (chain (leaf 1 ⟨a1, .ok x⟩ rbt) c f) Config.init) := by
  constructor
  · cases a1 <;> cases a2 <;>
      simp [invokeCommit, chain, leaf, perform, Config.exec, Config.init, hf, Bind.bind,
        JS.bind, emit, assign, noteRaised, later] <;>
      repeat (first
        | exact completes_quiet rfl
        | (refine completes_one rfl ?_
           simp [Pending.run, perform, Config.exec, hf, Bind.bind, JS.bind, emit,
             assign, noteRaised, later]))
  · cases a1 <;> cases a2 <;>
      simp [invokeCommit, chain, leaf, perform, Config.exec, Config.init, hf, Bind.bind,
        JS.bind, emit, assign, noteRaised, later] <;>
      repeat (first
        | (refine allRuns_quiet rfl ?_
           simp [Config.trace, count, appliedTo, failures, successes, isRollbackStart])
        | (refine allRuns_one rfl ?_
           simp [Pending.run, perform, Config.exec, hf, Bind.bind, JS.bind, emit,
             assign, noteRaised, later]))

/-- C4, at the scenario of the specification: step 1 commits `10`, step 2 commits `20`. -/
theorem chain_commit_both_stages_succeed_witness :
    Completes (invokeCommit (chain (leaf 1 ⟨false, .ok (Val.num 10)⟩ ⟨false, .ok ()⟩) 0
        (fun _ => leaf 2 ⟨true, .ok (Val.num 20)⟩ ⟨false, .ok ()⟩)) Config.init)
    ∧ AllRuns (fun fin =>
        appliedTo fin.trace = [Val.num 10]
        ∧ successes Side.commit fin.trace = [some (Val.num 20)]
        ∧ failures Side.commit fin.trace = []
        ∧ count isRollbackStart fin.trace = 0)
      (invokeCommit (chain (leaf 1 ⟨false, .ok (Val.num 10)⟩ ⟨false, .ok ()⟩) 0
        (fun _ => leaf 2 ⟨true, .ok (Val.num 20)⟩ ⟨false, .ok ()⟩)) Config.init) :=
  chain_commit_both_stages_succeed (Val.num 10) (Val.num 20) false true 0
    (fun _ => leaf 2 ⟨true, .ok (Val.num 20)⟩ ⟨false, .ok ()⟩) ⟨false, .ok ()⟩
    ⟨false, .ok ()⟩ rfl

/-- C5. In the commit of `t.chain(f)`: (1) when `t` commits `x` and `f` produces leaves, in
every configuration an execution reaches `f` has not been applied and the commit of `f(x)` has
not been started unless `t` reported its success before; (2) when the commit of `t` fails with
`e`, every complete execution leaves `f` unapplied, starts no rollback, calls the failure
handler exactly once, with `e`, and never the success handler, and such an execution
exists. -/
theorem chain_commit_stage_order {V : Type} (x e : V) (a1 : Bool) (c : Nat)
    (rbt : Behaviour V Unit) (cm : V → Behaviour V V) (rm : V → Behaviour V Unit)
    (f : V → Transaction V) :
    Always (fun cfg =>
        precedes (isReported 1 Side.commit true) isApplied cfg.trace = true
        ∧ precedes (isReported 1 Side.commit true) (isStarted 2 Side.commit) cfg.trace = true)
      (invokeCommit (chain (leaf 1 ⟨a1, .ok x⟩ rbt) c (fun y => leaf 2 (cm y) (rm y)))
        Config.init)
    ∧ Completes (invokeCommit (chain (leaf 1 ⟨a1, .error e⟩ rbt) c f) Config.init)
    ∧ AllRuns (fun fin =>
        appliedTo fin.trace = []
        ∧ count isRollbackStart fin.trace = 0
        ∧ failures Side.commit fin.trace = [e]
        ∧ successes Side.commit fin.trace = [])
      (invokeCommit (chain (leaf 1 ⟨a1, .error e⟩ rbt) c f) Config.init) := by
  refine ⟨?_, ?_, ?_⟩
  · rcases hc : cm x with ⟨a2, _ | _⟩ <;> rcases rbt with ⟨a3, _ | _⟩ <;>
      cases a1 <;> cases a2 <;> cases a3 <;>
      simp [invokeCommit, chain, leaf, perform, Config.exec, Config.init, hc, Bind.bind,
        JS.bind, emit, assign, noteRaised, later] <;>
      repeat (first
        | (refine always_quiet rfl ?_
           simp [Config.trace, precedes, isStarted, isReported, isApplied])
        | (refine always_one rfl
             (by simp [Config.trace, precedes, isStarted, isReported, isApplied]) ?_
           simp [Pending.run, perform, Config.exec, hc, Bind.bind, JS.bind, emit,
             assign, noteRaised, later]))
  · cases a1 <;>
      simp [invokeCommit, chain, leaf, perform, Config.exec, Config.init, Bind.bind,
        JS.bind, emit, assign, noteRaised, later] <;>
      repeat (first
        | exact completes_quiet rfl
        | (refine completes_one rfl ?_
           simp [Pending.run, perform, Config.exec, Bind.bind, JS.bind, emit,
             assign, noteRaised, later]))
  · cases a1 <;>
      simp [invokeCommit, chain, leaf, perform, Config.exec, Config.init, Bind.bind,
        JS.bind, emit, assign, noteRaised, later] <;>
      repeat (first
        | (refine allRuns_quiet rfl ?_
           simp [Config.trace, count, appliedTo, failures, successes, isRollbackStart])
        | (refine allRuns_one rfl ?_
           simp [Pending.run, perform, Config.exec, Bind.bind, JS.bind, emit,
             assign, noteRaised, later]))

set_option maxHeartbeats 1600000 in
/-- C6. When the two commits of `tf.ap(tv)` each report once and at least one of them fails,
every complete execution of the commit of `tf.ap(tv)` calls the failure handler exactly once,
with the failure that was reported first, and never the success handler. Such an execution
exists. -/
theorem ap_commit_first_failure_wins {V : Type} [JSValue V] (a1 a2 : Bool) (o1 o2 : Except V V)
    (rb1 rb2 : Behaviour V Unit)
    (h : (∃ e, o1 = .error e) ∨ (∃ e, o2 = .error e)) :
    Completes (invokeCommit (ap (leaf 1 ⟨a1, o1⟩ rb1) (leaf 2 ⟨a2, o2⟩ rb2)) Config.init)
    ∧ AllRuns (fun fin =>
        (failures Side.commit fin.trace).length = 1
        ∧ failures Side.commit fin.trace = (reportedFailures Side.commit fin.trace).take 1
        ∧ successes Side.commit fin.trace = [])
      (invokeCommit (ap (leaf 1 ⟨a1, o1⟩ rb1) (leaf 2 ⟨a2, o2⟩ rb2)) Config.init) := by
  constructor
  · rcases o1 with e1 | g <;> rcases o2 with e2 | v <;> simp at h <;>
      cases a1 <;> cases a2 <;>
      simp [invokeCommit, ap, leaf, perform, Config.exec, Config.init, Bind.bind,
        JS.bind, emit, noteRaised, later, newSlot, newFlag, getFlag, setFlag, getSlot, setSlot,
        Pure.pure, JS.pure] <;>
      repeat (first
        | exact completes_quiet rfl
        | (refine completes_one rfl ?_
           simp [Pending.run, perform, Config.exec, Bind.bind, JS.bind, emit,
             noteRaised, later, getFlag, setFlag, getSlot, setSlot, Pure.pure, JS.pure]))
  · rcases o1 with e1 | g <;> rcases o2 with e2 | v <;> simp at h <;>
      cases a1 <;> cases a2 <;>
      simp [invokeCommit, ap, leaf, perform, Config.exec, Config.init, Bind.bind,
        JS.bind, emit, noteRaised, later, newSlot, newFlag, getFlag, setFlag, getSlot, setSlot,
        Pure.pure, JS.pure] <;>
      repeat (first
        | (refine allRuns_quiet rfl ?_
           simp [Config.trace, failures, successes, reportedFailures])
        | (refine allRuns_one rfl ?_
           simp [Pending.run, perform, Config.exec, Bind.bind, JS.bind, emit,
             noteRaised, later, getFlag, setFlag, getSlot, setSlot, Pure.pure, JS.pure])
        | (refine allRuns_two rfl ?_ ?_ <;>
           simp [Pending.run, perform, Config.exec, Bind.bind, JS.bind, emit,
             noteRaised, later, getFlag, setFlag, getSlot, setSlot, Pure.pure, JS.pure]))

/-- C6, at an instance: the function side commits `add(1)` at once, the value side fails with
`7` in a later tick. -/
theorem ap_commit_first_failure_wins_witness :
    Completes (invokeCommit (ap (leaf 1 ⟨false, .ok (Val.addTo 1)⟩ ⟨false, .ok ()⟩)
        (leaf 2 ⟨true, .error (Val.num 7)⟩ ⟨false, .ok ()⟩)) Config.init)
    ∧ AllRuns (fun fin =>
        (failures Side.commit fin.trace).length = 1
        ∧ failures Side.commit fin.trace = (reportedFailures Side.commit fin.trace).take 1
        ∧ successes Side.commit fin.trace = [])
      (invokeCommit (ap (leaf 1 ⟨false, .ok (Val.addTo 1)⟩ ⟨false, .ok ()⟩)
        (leaf 2 ⟨true, .error (Val.num 7)⟩ ⟨false, .ok ()⟩)) Config.init) :=
  ap_commit_first_failure_wins false true (.ok (Val.addTo 1)) (.error (Val.num 7))
    ⟨false, .ok ()⟩ ⟨false, .ok ()⟩ (Or.inr ⟨Val.num 7, rfl⟩)

/-! ## The rollback of `ap` and of `chain` -/

/-- C7. When both inner rollbacks of `a.ap(b)` succeed, every complete execution of the
rollback of `a.ap(b)` starts each inner rollback exactly once, calls the success handler
exactly once and only after both inner rollbacks reported their success, and never calls the
failure handler. Such an execution exists. -/
theorem ap_rollback_both_succeed {V : Type} [JSValue V] (a1 a2 : Bool)
    (c1 c2 : Behaviour V V) :
    Completes (invokeRollback (ap (leaf 1 c1 ⟨a1, .ok ()⟩) (leaf 2 c2 ⟨a2, .ok ()⟩))
        Config.init)
    ∧ AllRuns (fun fin =>
        count (isStarted 1 Side.rollback) fin.trace = 1
        ∧ count (isStarted 2 Side.rollback) fin.trace = 1
        ∧ successes Side.rollback fin.trace = [none]
        ∧ precedes (isReported 1 Side.rollback true) (isSuccess Side.rollback) fin.trace = true
        ∧ precedes (isReported 2 Side.rollback true) (isSuccess Side.rollback) fin.trace = true
        ∧ failures Side.rollback fin.trace = [])
      (invokeRollback (ap (leaf 1 c1 ⟨a1, .ok ()⟩) (leaf 2 c2 ⟨a2, .ok ()⟩))
        Config.init) := by
  constructor
  · cases a1 <;> cases a2 <;>
      simp [invokeRollback, ap, rollbackBoth, leaf, perform, Config.exec, Config.init,
        Bind.bind, JS.bind, emit, noteRaised, later, newFlag, getFlag, setFlag,
        Pure.pure, JS.pure] <;>
      repeat (first
        | exact completes_quiet rfl
        | (refine completes_one rfl ?_
           simp [Pending.run, perform, Config.exec, Bind.bind, JS.bind, emit,
             noteRaised, later, getFlag, setFlag, Pure.pure, JS.pure]))
  · cases a1 <;> cases a2 <;>
      simp [invokeRollback, ap, rollbackBoth, leaf, perform, Config.exec, Config.init,
        Bind.bind, JS.bind, emit, noteRaised, later, newFlag, getFlag, setFlag,
        Pure.pure, JS.pure] <;>
      repeat (first
        | (refine allRuns_quiet rfl ?_
           simp [Config.trace, count, precedes, isStarted, isReported, isSuccess, failures,
             successes])
        | (refine allRuns_one rfl ?_
           simp [Pending.run, perform, Config.exec, Bind.bind, JS.bind, emit,
             noteRaised, later, getFlag, setFlag, Pure.pure, JS.pure])
        | (refine allRuns_two rfl ?_ ?_ <;>
           simp [Pending.run, perform, Config.exec, Bind.bind, JS.bind, emit,
             noteRaised, later, getFlag, setFlag, Pure.pure, JS.pure]))

set_option maxHeartbeats 1600000 in
/-- C8. When the two inner rollbacks of `a.ap(b)` each report once and at least one of them
fails, every complete execution of the rollback of `a.ap(b)` starts each inner rollback
exactly once and sees each of them report, calls the failure handler exactly once, with the
failure that was reported first, and never calls the success handler. Such an execution
exists. -/
theorem ap_rollback_first_failure_wins {V : Type} [JSValue V] (a1 a2 : Bool)
    (o1 o2 : Except V Unit) (c1 c2 : Behaviour V V)
    (h : (∃ e, o1 = .error e) ∨ (∃ e, o2 = .error e)) :
    Completes (invokeRollback (ap (leaf 1 c1 ⟨a1, o1⟩) (leaf 2 c2 ⟨a2, o2⟩)) Config.init)
    ∧ AllRuns (fun fin =>
        count (isStarted 1 Side.rollback) fin.trace = 1
        ∧ count (isStarted 2 Side.rollback) fin.trace = 1
        ∧ count (isSettled 1 Side.rollback) fin.trace = 1
        ∧ count (isSettled 2 Side.rollback) fin.trace = 1
        ∧ (failures Side.rollback fin.trace).length = 1
        ∧ failures Side.rollback fin.trace = (reportedFailures Side.rollback fin.trace).take 1
        ∧ successes Side.rollback fin.trace = [])
      (invokeRollback (ap (leaf 1 c1 ⟨a1, o1⟩) (leaf 2 c2 ⟨a2, o2⟩)) Config.init) := by
  constructor
  · rcases o1 with e1 | u1 <;> rcases o2 with e2 | u2 <;> simp at h <;>
      cases a1 <;> cases a2 <;>
      simp [invokeRollback, ap, rollbackBoth, leaf, perform, Config.exec, Config.init,
        Bind.bind, JS.bind, emit, noteRaised, later, newFlag, getFlag, setFlag,
        Pure.pure, JS.pure] <;>
      repeat (first
        | exact completes_quiet rfl
        | (refine completes_one rfl ?_
           simp [Pending.run, perform, Config.exec, Bind.bind, JS.bind, emit,
             noteRaised, later, getFlag, setFlag, Pure.pure, JS.pure]))
  · rcases o1 with e1 | u1 <;> rcases o2 with e2 | u2 <;> simp at h <;>
      cases a1 <;> cases a2 <;>
      simp [invokeRollback, ap, rollbackBoth, leaf, perform, Config.exec, Config.init,
        Bind.bind, JS.bind, emit, noteRaised, later, newFlag, getFlag, setFlag,
        Pure.pure, JS.pure] <;>
      repeat (first
        | (refine allRuns_quiet rfl ?_
           simp [Config.trace, count, isStarted, isSettled, failures, successes,
             reportedFailures])
        | (refine allRuns_one rfl ?_
           simp [Pending.run, perform, Config.exec, Bind.bind, JS.bind, emit,
             noteRaised, later, getFlag, setFlag, Pure.pure, JS.pure])
        | (refine allRuns_two rfl ?_ ?_ <;>
           simp [Pending.run, perform, Config.exec, Bind.bind, JS.bind, emit,
             noteRaised, later, getFlag, setFlag, Pure.pure, JS.pure]))

/-- C8, at an instance: the first rollback fails with `7` in a later tick, the second succeeds
at once. -/
theorem ap_rollback_first_failure_wins_witness :
    Completes (invokeRollback (ap (leaf 1 ⟨false, .ok Val.add⟩ ⟨true, .error (Val.num 7)⟩)
        (leaf 2 ⟨false, .ok (Val.num 1)⟩ ⟨false, .ok ()⟩)) Config.init)
    ∧ AllRuns (fun fin =>
        count (isStarted 1 Side.rollback) fin.trace = 1
        ∧ count (isStarted 2 Side.rollback) fin.trace = 1
        ∧ count (isSettled 1 Side.rollback) fin.trace = 1
        ∧ count (isSettled 2 Side.rollback) fin.trace = 1
        ∧ (failures Side.rollback fin.trace).length = 1
        ∧ failures Side.rollback fin.trace = (reportedFailures Side.rollback fin.trace).take 1
        ∧ successes Side.rollback fin.trace = [])
      (invokeRollback (ap (leaf 1 ⟨false, .ok Val.add⟩ ⟨true, .error (Val.num 7)⟩)
        (leaf 2 ⟨false, .ok (Val.num 1)⟩ ⟨false, .ok ()⟩)) Config.init) :=
  ap_rollback_first_failure_wins true false (.error (Val.num 7)) (.ok ())
    ⟨false, .ok Val.add⟩ ⟨false, .ok (Val.num 1)⟩ (Or.inl ⟨Val.num 7, rfl⟩)

/-- C9, evaluated: stage 1 commits `10`, stage 2 commits `20`, all synchronously; the rollback
of the chain is invoked after the commit succeeded. Each inner rollback runs once and the
success handler is called once, but the rollback of stage 1 (leaf 1) is started, and here also
finished, before the rollback of stage 2 (leaf 2) is started. -/
theorem chain_rollback_starts_first_stage_first :
    (invokeRollback
        (chain (leaf 1 ⟨false, .ok (Val.num 10)⟩ ⟨false, .ok ()⟩) 0
          (fun _ => leaf 2 ⟨false, .ok (Val.num 20)⟩ ⟨false, .ok ()⟩))
        (invokeCommit
          (chain (leaf 1 ⟨false, .ok (Val.num 10)⟩ ⟨false, .ok ()⟩) 0
            (fun _ => leaf 2 ⟨false, .ok (Val.num 20)⟩ ⟨false, .ok ()⟩))
          Config.init)).trace
      = [Event.started 1 Side.commit, Event.reported 1 Side.commit none,
         Event.applied (Val.num 10),
         Event.started 2 Side.commit, Event.reported 2 Side.commit none,
         Event.success Side.commit (some (Val.num 20)),
         Event.started 1 Side.rollback, Event.reported 1 Side.rollback none,
         Event.started 2 Side.rollback, Event.reported 2 Side.rollback none,
         Event.success Side.rollback none] := by
  decide

/-- C10, evaluated: the commit of stage 1 fails with `7`, so `f` is never applied; the rollback
of the chain is then invoked. The rollback of stage 1 runs and reports its success, then the
read of `m.rollback` on the undefined `m` raises a `TypeError`; no handler is called. -/
theorem chain_rollback_without_second_stage_raises :
    (invokeRollback
        (chain (leaf 1 ⟨false, .error (Val.num 7)⟩ ⟨false, .ok ()⟩) 0
          (fun _ => leaf 2 ⟨false, .ok (Val.num 20)⟩ ⟨false, .ok ()⟩))
        (invokeCommit
          (chain (leaf 1 ⟨false, .error (Val.num 7)⟩ ⟨false, .ok ()⟩) 0
            (fun _ => leaf 2 ⟨false, .ok (Val.num 20)⟩ ⟨false, .ok ()⟩))
          Config.init)).trace
      = [Event.started 1 Side.commit, Event.reported 1 Side.commit (some (Val.num 7)),
         Event.failure Side.commit (Val.num 7),
         Event.started 1 Side.rollback, Event.reported 1 Side.rollback none,
         Event.raised JSError.typeError] := by
  decide

/-! ## The rollback of a chain whose commit failed, and `map` -/

/-- C11, as stated, fails: stage 1 commits `10`, stage 2 fails with `7`, all synchronously;
the rollback of the chain, invoked after the commit failed, starts the rollback of stage 2. -/
theorem chain_rollback_after_failed_commit_counterexample :
    count (isStarted 2 Side.rollback)
      (invokeRollback
        (chain (leaf 1 ⟨false, .ok (Val.num 10)⟩ ⟨false, .ok ()⟩) 0
          (fun _ => leaf 2 ⟨false, .error (Val.num 7)⟩ ⟨false, .ok ()⟩))
        (invokeCommit
          (chain (leaf 1 ⟨false, .ok (Val.num 10)⟩ ⟨false, .ok ()⟩) 0
            (fun _ => leaf 2 ⟨false, .error (Val.num 7)⟩ ⟨false, .ok ()⟩))
          Config.init)).trace ≠ 0 := by
  decide

set_option maxHeartbeats 1600000 in
/-- Once `m = f(x)` has been assigned, the rollback of the chain starts the rollback of `t` and
the rollback of `m`, once each, whatever happened before. -/
theorem chain_rollback_once_assigned {V : Type} (x : V) (a2 a4 : Bool) (c : Nat)
    (ct cm : Behaviour V V) (o2 o4 : Except V Unit) (f : V → Transaction V)
    (hf : f x = leaf 2 cm ⟨a4, o4⟩) (tr : List (Event V)) :
    Completes (invokeRollback (chain (leaf 1 ct ⟨a2, o2⟩) c f) ⟨⟨tr, [], [], [(c, x)]⟩, []⟩)
    ∧ AllRuns (fun fin =>
        count (isStarted 1 Side.rollback) (fin.trace.drop tr.length) = 1
        ∧ count (isStarted 2 Side.rollback) (fin.trace.drop tr.length) = 1)
      (invokeRollback (chain (leaf 1 ct ⟨a2, o2⟩) c f) ⟨⟨tr, [], [], [(c, x)]⟩, []⟩) := by
  constructor
  · rcases o2 with r2 | u2 <;> rcases o4 with r4 | u4 <;> cases a2 <;> cases a4 <;>
      simp [invokeRollback, chain, rollbackBoth, leaf, perform, Config.exec, hf,
        Bind.bind, JS.bind, emit, deref, noteRaised, later, newFlag, getFlag, setFlag,
        Pure.pure, JS.pure, List.lookup] <;>
      repeat (first
        | exact completes_quiet rfl
        | (refine completes_one rfl ?_
           simp [Pending.run, perform, Config.exec, Bind.bind, JS.bind, emit,
             noteRaised, later, getFlag, setFlag, Pure.pure, JS.pure]))
  · rcases o2 with r2 | u2 <;> rcases o4 with r4 | u4 <;> cases a2 <;> cases a4 <;>
      simp [invokeRollback, chain, rollbackBoth, leaf, perform, Config.exec, hf,
        Bind.bind, JS.bind, emit, deref, noteRaised, later, newFlag, getFlag, setFlag,
        Pure.pure, JS.pure, List.lookup] <;>
      repeat (first
        | (refine allRuns_quiet rfl ?_
           simp [Config.trace, count, isStarted])
        | (refine allRuns_one rfl ?_
           simp [Pending.run, perform, Config.exec, Bind.bind, JS.bind, emit,
             noteRaised, later, getFlag, setFlag, Pure.pure, JS.pure])
        | (refine allRuns_two rfl ?_ ?_ <;>
           simp [Pending.run, perform, Config.exec, Bind.bind, JS.bind, emit,
             noteRaised, later, getFlag, setFlag, Pure.pure, JS.pure]))

/-- C11, amended. When stage 1 commits `x` and the commit of `m = f(x)` fails, every complete
execution of the commit of `t.chain(f)` ends in a configuration from which the rollback of the
chain, once invoked, starts the rollback of `t` exactly once and the rollback of `m` exactly
once, in every complete execution; such executions exist. The events counted are those after
the invocation of the rollback. -/
theorem chain_rollback_after_failed_commit {V : Type} (x e : V) (a1 a2 a3 a4 : Bool) (c : Nat)
    (o2 o4 : Except V Unit) (f : V → Transaction V)
    (hf : f x = leaf 2 ⟨a3, .error e⟩ ⟨a4, o4⟩) :
    Completes (invokeCommit (chain (leaf 1 ⟨a1, .ok x⟩ ⟨a2, o2⟩) c f) Config.init)
    ∧ AllRuns (fun mid =>
        Completes (invokeRollback (chain (leaf 1 ⟨a1, .ok x⟩ ⟨a2, o2⟩) c f) mid)
        ∧ AllRuns (fun fin =>
            count (isStarted 1 Side.rollback) (fin.trace.drop mid.trace.length) = 1
            ∧ count (isStarted 2 Side.rollback) (fin.trace.drop mid.trace.length) = 1)
          (invokeRollback (chain (leaf 1 ⟨a1, .ok x⟩ ⟨a2, o2⟩) c f) mid))
      (invokeCommit (chain (leaf 1 ⟨a1, .ok x⟩ ⟨a2, o2⟩) c f) Config.init) := by
  constructor
  · rcases o2 with r2 | u2 <;> cases a1 <;> cases a2 <;> cases a3 <;>
      simp [invokeCommit, chain, leaf, perform, Config.exec, Config.init, hf, Bind.bind,
        JS.bind, emit, assign, noteRaised, later] <;>
      repeat (first
        | exact completes_quiet rfl
        | (refine completes_one rfl ?_
           simp [Pending.run, perform, Config.exec, hf, Bind.bind, JS.bind, emit,
             assign, noteRaised, later]))
  · generalize hP : (fun mid : Config V =>
        Completes (invokeRollback (chain (leaf 1 ⟨a1, .ok x⟩ ⟨a2, o2⟩) c f) mid)
        ∧ AllRuns (fun fin =>
            count (isStarted 1 Side.rollback) (fin.trace.drop mid.trace.length) = 1
            ∧ count (isStarted 2 Side.rollback) (fin.trace.drop mid.trace.length) = 1)
          (invokeRollback (chain (leaf 1 ⟨a1, .ok x⟩ ⟨a2, o2⟩) c f) mid)) = P
    have hR : ∀ tr : List (Event V), P ⟨⟨tr, [], [], [(c, x)]⟩, []⟩ := by
      intro tr
      rw [← hP]
      exact chain_rollback_once_assigned x a2 a4 c ⟨a1, .ok x⟩ ⟨a3, .error e⟩ o2 o4 f hf tr
    clear hP
    rcases o2 with r2 | u2 <;> cases a1 <;> cases a2 <;> cases a3 <;>
      simp [invokeCommit, chain, leaf, perform, Config.exec, Config.init, hf, Bind.bind,
        JS.bind, emit, assign, noteRaised, later] <;>
      repeat (first
        | exact allRuns_quiet rfl (hR _)
        | (refine allRuns_one rfl ?_
           simp [Pending.run, perform, Config.exec, hf, Bind.bind, JS.bind, emit, assign,
             noteRaised, later]))

/-- C11, amended, at the scenario of the specification: step 1 commits `10`, step 2 fails
with `7`. -/
theorem chain_rollback_after_failed_commit_witness :
    Completes (invokeCommit (chain (leaf 1 ⟨false, .ok (Val.num 10)⟩ ⟨false, .ok ()⟩) 0
        (fun _ => leaf 2 ⟨false, .error (Val.num 7)⟩ ⟨false, .ok ()⟩)) Config.init)
    ∧ AllRuns (fun mid =>
        Completes (invokeRollback (chain (leaf 1 ⟨false, .ok (Val.num 10)⟩ ⟨false, .ok ()⟩) 0
          (fun _ => leaf 2 ⟨false, .error (Val.num 7)⟩ ⟨false, .ok ()⟩)) mid)
        ∧ AllRuns (fun fin =>
            count (isStarted 1 Side.rollback) (fin.trace.drop mid.trace.length) = 1
            ∧ count (isStarted 2 Side.rollback) (fin.trace.drop mid.trace.length) = 1)
          (invokeRollback (chain (leaf 1 ⟨false, .ok (Val.num 10)⟩ ⟨false, .ok ()⟩) 0
            (fun _ => leaf 2 ⟨false, .error (Val.num 7)⟩ ⟨false, .ok ()⟩)) mid))
      (invokeCommit (chain (leaf 1 ⟨false, .ok (Val.num 10)⟩ ⟨false, .ok ()⟩) 0
        (fun _ => leaf 2 ⟨false, .error (Val.num 7)⟩ ⟨false, .ok ()⟩)) Config.init) :=
  chain_rollback_after_failed_commit (Val.num 10) (Val.num 7) false false false false 0
    (.ok ()) (.ok ()) (fun _ => leaf 2 ⟨false, .error (Val.num 7)⟩ ⟨false, .ok ()⟩) rfl

/-- C12. For a transaction `t` whose commit reports once and a function `f`: when `t` commits
`x`, every complete execution of the commit of `t.map(f)` calls the success handler exactly
once, with `f(x)`, and never the failure handler; when the commit of `t` fails with `e`, it
calls the failure handler exactly once, with `e`, never the success handler, and the mapper is
not applied. With the identity for `f` the outcome is that of the commit of `t` itself.
Complete executions exist. -/
theorem map_commit {V : Type} (x e : V) (a : Bool) (c : Nat) (rbt : Behaviour V Unit)
    (f : V → V) :
    (Completes (invokeCommit (map (leaf 1 ⟨a, .ok x⟩ rbt) c f) Config.init)
      ∧ AllRuns (fun fin =>
          successes Side.commit fin.trace = [some (f x)]
          ∧ failures Side.commit fin.trace = [])
        (invokeCommit (map (leaf 1 ⟨a, .ok x⟩ rbt) c f) Config.init))
    ∧ (Completes (invokeCommit (map (leaf 1 ⟨a, .error e⟩ rbt) c f) Config.init)
      ∧ AllRuns (fun fin =>
          failures Side.commit fin.trace = [e]
          ∧ successes Side.commit fin.trace = []
          ∧ appliedTo fin.trace = [])
        (invokeCommit (map (leaf 1 ⟨a, .error e⟩ rbt) c f) Config.init))
    ∧ (AllRuns (fun fin =>
          successes Side.commit fin.trace = [some x]
          ∧ failures Side.commit fin.trace = [])
        (invokeCommit (map (leaf 1 ⟨a, .ok x⟩ rbt) c (fun y => y)) Config.init)
      ∧ AllRuns (fun fin =>
          successes Side.commit fin.trace = [some x]
          ∧ failures Side.commit fin.trace = [])
        (invokeCommit (leaf 1 ⟨a, .ok x⟩ rbt) Config.init))
    ∧ (AllRuns (fun fin =>
          failures Side.commit fin.trace = [e]
          ∧ successes Side.commit fin.trace = [])
        (invokeCommit (map (leaf 1 ⟨a, .error e⟩ rbt) c (fun y => y)) Config.init)
      ∧ AllRuns (fun fin =>
          failures Side.commit fin.trace = [e]
          ∧ successes Side.commit fin.trace = [])
        (invokeCommit (leaf 1 ⟨a, .error e⟩ rbt) Config.init)) := by
  refine ⟨⟨?_, ?_⟩, ⟨?_, ?_⟩, ⟨?_, ?_⟩, ⟨?_, ?_⟩⟩ <;> cases a <;>
    simp [invokeCommit, map, chain, of, leaf, perform, Config.exec, Config.init, Bind.bind,
      JS.bind, emit, assign, noteRaised, later] <;>
    repeat (first
      | exact completes_quiet rfl
      | (refine completes_one rfl ?_
         simp [Pending.run, perform, Config.exec, Bind.bind, JS.bind, emit,
           assign, noteRaised, later])
      | (refine allRuns_quiet rfl ?_
         simp [Config.trace, appliedTo, failures, successes])
      | (refine allRuns_one rfl ?_
         simp [Pending.run, perform, Config.exec, Bind.bind, JS.bind, emit,
           assign, noteRaised, later]))

/-- C13, evaluated: the rollback of `t.map(f)` is invoked before the mapped commit was run, so
`m` is still undefined. The rollback of `t` runs and reports its success, then the read of
`m.rollback` raises a `TypeError`; the success handler is not called. -/
theorem map_rollback_before_commit_raises :
    (invokeRollback (map (leaf 1 ⟨false, .ok (Val.num 1)⟩ ⟨false, .ok ()⟩) 0 (fun y => y))
        Config.init).trace
      = [Event.started 1 Side.rollback, Event.reported 1 Side.rollback none,
         Event.raised JSError.typeError] := by
  decide

/-! ## The laws, on `of` -/

/-- C14. Monad associativity: with `f1 = y => of(f(y))` and `g1 = y => of(g(y))`, the commits
of `of(x).chain(f1).chain(g1)` and of `of(x).chain(y => f1(y).chain(g1))` both finish at once,
with one call of the success handler, with `g(f(x))`, and no call of the failure handler. -/
theorem chain_associativity {V : Type} (x : V) (f g : V → V) (c1 c2 : Nat) :
    ((invokeCommit (chain (chain (of x) c1 (fun y => of (f y))) c2 (fun y => of (g y)))
        Config.init).pending.length = 0
      ∧ successes Side.commit (invokeCommit
          (chain (chain (of x) c1 (fun y => of (f y))) c2 (fun y => of (g y)))
          Config.init).trace = [some (g (f x))]
      ∧ failures Side.commit (invokeCommit
          (chain (chain (of x) c1 (fun y => of (f y))) c2 (fun y => of (g y)))
          Config.init).trace = [])
    ∧ ((invokeCommit (chain (of x) c1 (fun y => chain (of (f y)) c2 (fun z => of (g z))))
        Config.init).pending.length = 0
      ∧ successes Side.commit (invokeCommit
          (chain (of x) c1 (fun y => chain (of (f y)) c2 (fun z => of (g z))))
          Config.init).trace = [some (g (f x))]
      ∧ failures Side.commit (invokeCommit
          (chain (of x) c1 (fun y => chain (of (f y)) c2 (fun z => of (g z))))
          Config.init).trace = []) := by
  simp [invokeCommit, chain, of, Config.exec, Config.init, Config.trace, Bind.bind, JS.bind,
    emit, assign, noteRaised, successes, failures]

/-- C19. Functor composition: the commits of `of(x).map(f).map(g)` and of
`of(x).map(y => g(f(y)))` both finish at once, with one call of the success handler, with
`g(f(x))`, and no call of the failure handler. -/
theorem map_composition {V : Type} (x : V) (f g : V → V) (c1 c2 : Nat) :
    ((invokeCommit (map (map (of x) c1 f) c2 g) Config.init).pending.length = 0
      ∧ successes Side.commit (invokeCommit (map (map (of x) c1 f) c2 g) Config.init).trace
          = [some (g (f x))]
      ∧ failures Side.commit (invokeCommit (map (map (of x) c1 f) c2 g) Config.init).trace
          = [])
    ∧ ((invokeCommit (map (of x) c1 (fun y => g (f y))) Config.init).pending.length = 0
      ∧ successes Side.commit
          (invokeCommit (map (of x) c1 (fun y => g (f y))) Config.init).trace
          = [some (g (f x))]
      ∧ failures Side.commit
          (invokeCommit (map (of x) c1 (fun y => g (f y))) Config.init).trace = []) := by
  simp [invokeCommit, map, chain, of, Config.exec, Config.init, Config.trace, Bind.bind,
    JS.bind, emit, assign, noteRaised, successes, failures]

/-- C20. The commit of `of(x)` calls the success handler with `x` before it returns, the
rollback of `of(x)` calls the success handler without a payload before it returns; nothing
else happens, nothing is left for a later tick, and no failure handler is called. -/
theorem of_commit_and_rollback {V : Type} (x : V) :
    (invokeCommit (of x) Config.init).trace = [Event.success Side.commit (some x)]
    ∧ (invokeCommit (of x) Config.init).pending.length = 0
    ∧ (invokeRollback (of x) Config.init).trace = [Event.success Side.rollback none]
    ∧ (invokeRollback (of x) Config.init).pending.length = 0 := by
  simp [invokeCommit, invokeRollback, of, Config.exec, Config.init, Config.trace, emit,
    noteRaised]

/-- C15. Apply composition: for function values `F` and `G` and the function `compose`
(`compose(a)(b)(y) = a(b(y))`, its results functions, hence truthy), the commits of
`of(F).map(compose).ap(of(G)).ap(of(x))` and of `of(F).ap(of(G).ap(of(x)))` both finish at
once, with one call of the success handler, with `F(G(x))`, and no call of the failure
handler. -/
theorem ap_composition {V : Type} [JSValue V] (F G x : V) (compose : V → V) (c : Nat)
    (hF : JSValue.truthy F = true) (hG : JSValue.truthy G = true)
    (hc1 : JSValue.truthy (compose F) = true)
    (hc2 : JSValue.truthy (JSValue.call (compose F) G) = true)
    (hcomp : JSValue.call (JSValue.call (compose F) G) x = JSValue.call F (JSValue.call G x)) :
    ((invokeCommit (ap (ap (map (of F) c compose) (of G)) (of x)) Config.init).pending.length
        = 0
      ∧ successes Side.commit
          (invokeCommit (ap (ap (map (of F) c compose) (of G)) (of x)) Config.init).trace
          = [some (JSValue.call F (JSValue.call G x))]
      ∧ failures Side.commit
          (invokeCommit (ap (ap (map (of F) c compose) (of G)) (of x)) Config.init).trace
          = [])
    ∧ ((invokeCommit (ap (of F) (ap (of G) (of x))) Config.init).pending.length = 0
      ∧ successes Side.commit
          (invokeCommit (ap (of F) (ap (of G) (of x))) Config.init).trace
          = [some (JSValue.call F (JSValue.call G x))]
      ∧ failures Side.commit
          (invokeCommit (ap (of F) (ap (of G) (of x))) Config.init).trace = []) := by
  simp [invokeCommit, ap, map, chain, of, Config.exec, Config.init, Config.trace, Bind.bind,
    JS.bind, emit, assign, noteRaised, successes, failures, newSlot, newFlag, getFlag, setFlag,
    getSlot, setSlot, Pure.pure, JS.pure, hF, hG, hc1, hc2, hcomp]

/-- C15, at the values of the test file, with `add(2)` for `mult(2)`: `F = add(2)`,
`G = add(1)`, `x = 1`; both sides commit `4`. -/
theorem ap_composition_witness :
    ((invokeCommit (ap (ap (map (of (Val.addTo 2)) 0 Val.composeWith) (of (Val.addTo 1)))
        (of (Val.num 1))) Config.init).pending.length = 0
      ∧ successes Side.commit
          (invokeCommit (ap (ap (map (of (Val.addTo 2)) 0 Val.composeWith) (of (Val.addTo 1)))
            (of (Val.num 1))) Config.init).trace
          = [some (JSValue.call (Val.addTo 2) (JSValue.call (Val.addTo 1) (Val.num 1)))]
      ∧ failures Side.commit
          (invokeCommit (ap (ap (map (of (Val.addTo 2)) 0 Val.composeWith) (of (Val.addTo 1)))
            (of (Val.num 1))) Config.init).trace = [])
    ∧ ((invokeCommit (ap (of (Val.addTo 2)) (ap (of (Val.addTo 1)) (of (Val.num 1))))
        Config.init).pending.length = 0
      ∧ successes Side.commit
          (invokeCommit (ap (of (Val.addTo 2)) (ap (of (Val.addTo 1)) (of (Val.num 1))))
            Config.init).trace
          = [some (JSValue.call (Val.addTo 2) (JSValue.call (Val.addTo 1) (Val.num 1)))]
      ∧ failures Side.commit
          (invokeCommit (ap (of (Val.addTo 2)) (ap (of (Val.addTo 1)) (of (Val.num 1))))
            Config.init).trace = []) :=
  ap_composition (Val.addTo 2) (Val.addTo 1) (Val.num 1) Val.composeWith 0 rfl rfl rfl rfl rfl

/-- C16. Applicative homomorphism: for a function value `f` (truthy, as every function) and
every value `x`, falsy or not, the commit of `of(f).ap(of(x))` finishes at once, with one call
of the success handler, with `f(x)`, and no call of the failure handler; the commit of
`of(f(x))` calls the success handler with the same value. -/
theorem ap_homomorphism {V : Type} [JSValue V] (f x : V) (hf : JSValue.truthy f = true) :
    (invokeCommit (ap (of f) (of x)) Config.init).pending.length = 0
    ∧ successes Side.commit (invokeCommit (ap (of f) (of x)) Config.init).trace
        = [some (JSValue.call f x)]
    ∧ failures Side.commit (invokeCommit (ap (of f) (of x)) Config.init).trace = []
    ∧ (invokeCommit (of (JSValue.call f x)) Config.init).trace
        = [Event.success Side.commit (some (JSValue.call f x))] := by
  simp [invokeCommit, ap, of, Config.exec, Config.init, Config.trace, Bind.bind,
    JS.bind, emit, noteRaised, successes, failures, newSlot, newFlag, getFlag, setFlag,
    getSlot, setSlot, Pure.pure, JS.pure, hf]

/-- C16, at a falsy value: `f = add(1)`, `x = 0`. -/
theorem ap_homomorphism_witness :
    (invokeCommit (ap (of (Val.addTo 1)) (of (Val.num 0))) Config.init).pending.length = 0
    ∧ successes Side.commit
        (invokeCommit (ap (of (Val.addTo 1)) (of (Val.num 0))) Config.init).trace
        = [some (JSValue.call (Val.addTo 1) (Val.num 0))]
    ∧ failures Side.commit
        (invokeCommit (ap (of (Val.addTo 1)) (of (Val.num 0))) Config.init).trace = []
    ∧ (invokeCommit (of (JSValue.call (Val.addTo 1) (Val.num 0))) Config.init).trace
        = [Event.success Side.commit (some (JSValue.call (Val.addTo 1) (Val.num 0)))] :=
  ap_homomorphism (Val.addTo 1) (Val.num 0) rfl

/-- C17. Applicative identity: for the identity function value and a transaction `v` whose
commit reports once, at once or in a later tick, every complete execution of the commit of
`of(identity).ap(v)` calls the success handler exactly once, with `x`, and never the failure
handler when `v` commits `x`, and calls the failure handler exactly once, with `e`, and never
the success handler when the commit of `v` fails with `e`. Complete executions exist. -/
theorem ap_identity {V : Type} [JSValue V] (idv x e : V) (a : Bool) (rb : Behaviour V Unit)
    (htruthy : JSValue.truthy idv = true) (hid : ∀ y : V, JSValue.call idv y = y) :
    (Completes (invokeCommit (ap (of idv) (leaf 1 ⟨a, .ok x⟩ rb)) Config.init)
      ∧ AllRuns (fun fin =>
          successes Side.commit fin.trace = [some x]
          ∧ failures Side.commit fin.trace = [])
        (invokeCommit (ap (of idv) (leaf 1 ⟨a, .ok x⟩ rb)) Config.init))
    ∧ (Completes (invokeCommit (ap (of idv) (leaf 1 ⟨a, .error e⟩ rb)) Config.init)
      ∧ AllRuns (fun fin =>
          failures Side.commit fin.trace = [e]
          ∧ successes Side.commit fin.trace = [])
        (invokeCommit (ap (of idv) (leaf 1 ⟨a, .error e⟩ rb)) Config.init))
    ∧ successes Side.commit (invokeCommit (ap (of idv) (of x)) Config.init).trace
        = [some x] := by
  refine ⟨⟨?_, ?_⟩, ⟨?_, ?_⟩, ?_⟩
  case refine_5 =>
    simp [invokeCommit, ap, of, Config.exec, Config.init, Config.trace, Bind.bind,
      JS.bind, emit, noteRaised, successes, newSlot, newFlag, getFlag, setFlag,
      getSlot, setSlot, Pure.pure, JS.pure, htruthy, hid]
  all_goals
    cases a <;>
    simp [invokeCommit, ap, of, leaf, perform, Config.exec, Config.init, Bind.bind,
      JS.bind, emit, noteRaised, later, newSlot, newFlag, getFlag, setFlag, getSlot, setSlot,
      Pure.pure, JS.pure, htruthy, hid] <;>
    repeat (first
      | exact completes_quiet rfl
      | (refine completes_one rfl ?_
         simp [Pending.run, perform, Config.exec, Bind.bind, JS.bind, emit, noteRaised,
           later, getFlag, setFlag, getSlot, setSlot, Pure.pure, JS.pure, htruthy, hid])
      | (refine allRuns_quiet rfl ?_
         simp [Config.trace, failures, successes])
      | (refine allRuns_one rfl ?_
         simp [Pending.run, perform, Config.exec, Bind.bind, JS.bind, emit, noteRaised,
           later, getFlag, setFlag, getSlot, setSlot, Pure.pure, JS.pure, htruthy, hid]))

/-- C17, at the test of the repository and beside it: `v` commits `1` in a later tick or fails
with `7`. -/
theorem ap_identity_witness :
    (Completes (invokeCommit (ap (of Val.identity)
        (leaf 1 ⟨true, .ok (Val.num 1)⟩ ⟨false, .ok ()⟩)) Config.init)
      ∧ AllRuns (fun fin =>
          successes Side.commit fin.trace = [some (Val.num 1)]
          ∧ failures Side.commit fin.trace = [])
        (invokeCommit (ap (of Val.identity)
          (leaf 1 ⟨true, .ok (Val.num 1)⟩ ⟨false, .ok ()⟩)) Config.init))
    ∧ (Completes (invokeCommit (ap (of Val.identity)
        (leaf 1 ⟨true, .error (Val.num 7)⟩ ⟨false, .ok ()⟩)) Config.init)
      ∧ AllRuns (fun fin =>
          failures Side.commit fin.trace = [Val.num 7]
          ∧ successes Side.commit fin.trace = [])
        (invokeCommit (ap (of Val.identity)
          (leaf 1 ⟨true, .error (Val.num 7)⟩ ⟨false, .ok ()⟩)) Config.init))
    ∧ successes Side.commit
        (invokeCommit (ap (of Val.identity) (of (Val.num 1))) Config.init).trace
        = [some (Val.num 1)] :=
  ap_identity Val.identity (Val.num 1) (Val.num 7) true ⟨false, .ok ()⟩ rfl (fun _ => rfl)

/-- C18. Applicative interchange: for a function value `f`, a value `x` and the function value
`th = g => g(x)`, the commits of `of(f).ap(of(x))` and of `of(th).ap(of(f))` both finish at
once, with one call of the success handler, with the same value `f(x)`, and no call of the
failure handler. -/
theorem ap_interchange {V : Type} [JSValue V] (f x th : V)
    (hf : JSValue.truthy f = true) (hth : JSValue.truthy th = true)
    (happ : JSValue.call th f = JSValue.call f x) :
    ((invokeCommit (ap (of f) (of x)) Config.init).pending.length = 0
      ∧ successes Side.commit (invokeCommit (ap (of f) (of x)) Config.init).trace
          = [some (JSValue.call f x)]
      ∧ failures Side.commit (invokeCommit (ap (of f) (of x)) Config.init).trace = [])
    ∧ ((invokeCommit (ap (of th) (of f)) Config.init).pending.length = 0
      ∧ successes Side.commit (invokeCommit (ap (of th) (of f)) Config.init).trace
          = [some (JSValue.call f x)]
      ∧ failures Side.commit (invokeCommit (ap (of th) (of f)) Config.init).trace = []) := by
  simp [invokeCommit, ap, of, Config.exec, Config.init, Config.trace, Bind.bind,
    JS.bind, emit, noteRaised, successes, failures, newSlot, newFlag, getFlag, setFlag,
    getSlot, setSlot, Pure.pure, JS.pure, hf, hth, happ]

/-- C18, at the values of the test file: `f = add(1)`, `x = 1`. -/
theorem ap_interchange_witness :
    ((invokeCommit (ap (of (Val.addTo 1)) (of (Val.num 1))) Config.init).pending.length = 0
      ∧ successes Side.commit
          (invokeCommit (ap (of (Val.addTo 1)) (of (Val.num 1))) Config.init).trace
          = [some (JSValue.call (Val.addTo 1) (Val.num 1))]
      ∧ failures Side.commit
          (invokeCommit (ap (of (Val.addTo 1)) (of (Val.num 1))) Config.init).trace = [])
    ∧ ((invokeCommit (ap (of (Val.applyTo (Val.num 1))) (of (Val.addTo 1)))
        Config.init).pending.length = 0
      ∧ successes Side.commit
          (invokeCommit (ap (of (Val.applyTo (Val.num 1))) (of (Val.addTo 1)))
            Config.init).trace
          = [some (JSValue.call (Val.addTo 1) (Val.num 1))]
      ∧ failures Side.commit
          (invokeCommit (ap (of (Val.applyTo (Val.num 1))) (of (Val.addTo 1)))
            Config.init).trace = []) :=
  ap_interchange (Val.addTo 1) (Val.num 1) (Val.applyTo (Val.num 1)) rfl rfl rfl

end FantasyTransactions
